import Mathlib

/-!
# Graph mutation shims of `tensorflow/c/python_api.cc`

A shallow embedding of the four functions of `python_api.cc`
(`UpdateEdge`, `AddControlInput`, `ClearControlInputs`, `SetRequestedDevice`)
and of the parts of the graph library they call.

* Handles (`TF_Operation*`, `Node*`) are node ids; a handle is always valid.
* The C `int` indices of `TF_Output` / `TF_Input` are `Int`: they are signed and
  only ever compared and printed, never used in arithmetic.
* The out-parameter `TF_Status* status` and the mutated `TF_Graph* graph` are
  returned as values.
* `mutex_lock l(graph->mu)` has no counterpart: the embedding is sequential.
-/

namespace tensorflow

/-! ## Status -/

/-- Modelled from the spec: the error codes of `tensorflow::Status`, which is
not part of the sources ("out-of-range" and "internal/invalid-argument" are
the two kinds of error of the spec's taxonomy). -/
inductive Code where
  | OK
  | INVALID_ARGUMENT
  | OUT_OF_RANGE
deriving DecidableEq, Repr

/-- Modelled from the spec: `tensorflow::Status` is not part of the sources; it
carries "either success or a structured error with a textual message". -/
structure Status where
  code : Code
  error_message : String
deriving DecidableEq, Repr

/-- The success value `Status::OK()`. -/
def Status.OK : Status := ⟨Code.OK, ""⟩

/-- Modelled from the spec: `tensorflow::errors::OutOfRange` is not part of the
sources; it builds an out-of-range error whose message is the concatenation of
its arguments ("a structured error with a textual message"). -/
def errors.OutOfRange (parts : List String) : Status :=
  ⟨Code.OUT_OF_RANGE, String.join parts⟩

/-- Modelled from the spec: `tensorflow::errors::InvalidArgument`, the error the
graph library surfaces when a structural update cannot be performed. -/
def errors.InvalidArgument (parts : List String) : Status :=
  ⟨Code.INVALID_ARGUMENT, String.join parts⟩

/-- The C struct `TF_Status` as `python_api.cc` uses it (`status->status`). -/
structure TF_Status where
  status : Status
deriving DecidableEq, Repr

/-! ## Shape inference contexts -/

/-- Modelled from the spec: a `ShapeHandle` stands for a tensor shape; here
the list of its dimensions. -/
structure ShapeHandle where
  dims : List Int
deriving DecidableEq, Repr

/-- Modelled from the spec: `shape_inference::InferenceContext` is not part of
the sources; it is the "per-node shape-inference state, tracking number of
inputs/outputs and their shape handles". -/
structure InferenceContext where
  inputs_ : List ShapeHandle
  outputs_ : List ShapeHandle
deriving DecidableEq, Repr

/-- Modelled from the spec: `InferenceContext::num_inputs`, the declared number
of inputs, a C `int`. -/
def InferenceContext.num_inputs (ic : InferenceContext) : Int :=
  (ic.inputs_.length : Int)

/-- Modelled from the spec: `InferenceContext::num_outputs`, the declared
number of outputs, a C `int`. -/
def InferenceContext.num_outputs (ic : InferenceContext) : Int :=
  (ic.outputs_.length : Int)

/-- Modelled from the spec: `InferenceContext::output`, the shape handle of
output `idx`; `none` when `idx` is not a position of the output vector (the
C++ read is then out of bounds). -/
def InferenceContext.output (ic : InferenceContext) (idx : Int) : Option ShapeHandle :=
  if 0 ≤ idx then ic.outputs_[idx.toNat]? else none

/-- Modelled from the spec: `ShapeRefiner` is not part of the sources; it is the
graph's "shape-inference refiner (to look up per-node inference contexts)".
Every node handle passed in is assumed to have a context. -/
structure ShapeRefiner where
  GetContext : Nat → InferenceContext

/-! ## Graph -/

/-- Modelled from the spec: an `Edge` is a "directed arc between two operations'
ports; may be a data edge ... or a control edge (ordering-only, no data)". -/
inductive Edge where
  | data (src : Nat) (src_output : Int) (dst : Nat) (dst_input : Int)
  | control (src : Nat) (dst : Nat)
deriving DecidableEq, Repr

/-- The source node of an edge. -/
def Edge.src : Edge → Nat
  | .data s _ _ _ => s
  | .control s _ => s

/-- The destination node of an edge. -/
def Edge.dst : Edge → Nat
  | .data _ _ d _ => d
  | .control _ d => d

/-- Modelled from the spec: `Edge::IsControlEdge`, whether the edge is
"classified as a control edge". -/
def Edge.IsControlEdge : Edge → Bool
  | .data _ _ _ _ => false
  | .control _ _ => true

/-- Whether the edge is a data edge entering input `dst_input` of node `dst`. -/
def Edge.entersPort (dst : Nat) (dst_input : Int) : Edge → Bool
  | .data _ _ d i => d == dst && i == dst_input
  | .control _ _ => false

/-- Modelled from the spec: `tensorflow::Graph` is not part of the sources; it
"owns a mutable set of operation nodes and edges".  `edges_` maps an edge id
(the position) to the edge with that id, `none` once that edge has been
removed; `requested_device` is the device-placement field of each node. -/
structure Graph where
  edges_ : List (Option Edge)
  requested_device : Nat → String

/-- The edge with id `id` is `e` and is in the graph. -/
def Graph.HasEdge (g : Graph) (id : Nat) (e : Edge) : Prop :=
  g.edges_[id]? = some (some e)

instance (g : Graph) (id : Nat) (e : Edge) : Decidable (g.HasEdge id e) := by
  unfold Graph.HasEdge; infer_instance

/-- The edges of the graph with their ids, in id order. -/
def Graph.edges (g : Graph) : List (Nat × Edge) :=
  g.edges_.enum.filterMap (fun p => p.2.map (fun e => (p.1, e)))

/-- Modelled from the spec: `Node::in_edges` is not part of the sources; it is
the collection of "the operation's current incoming edges", which the node
owns (a node "owns ... its incident edges"): an edge removed from the graph
is no longer in it.  The edges stand in id order. -/
def Graph.in_edges (g : Graph) (node : Nat) : List (Nat × Edge) :=
  g.edges.filter (fun p => p.2.dst == node)

/-- The data edges that enter input `dst_input` of node `dst`. -/
def Graph.in_edges_at (g : Graph) (dst : Nat) (dst_input : Int) : List (Nat × Edge) :=
  g.edges.filter (fun p => p.2.entersPort dst dst_input)

/-- Modelled from the spec: the graph's "edge-remove primitive"; the edge with
the given id leaves the graph, the other edges keep their ids. -/
def Graph.RemoveEdge (g : Graph) (id : Nat) : Graph :=
  { g with edges_ := g.edges_.set id none }

/-- Modelled from the spec: the graph's "edge-add primitive"; the new edge gets
the next unused id. -/
def Graph.AddEdge (g : Graph) (e : Edge) : Graph :=
  { g with edges_ := g.edges_ ++ [some e] }

/-- Modelled from the spec: `Graph::UpdateEdge` is not part of the sources; the
"edge-update primitive ... must atomically remove the old incoming edge at the
destination port and install the new one, returning an error if the underlying
structural invariant cannot be satisfied" (here: no edge enters the port). -/
def Graph.UpdateEdge (g : Graph) (new_src : Nat) (new_src_index : Int)
    (dst : Nat) (dst_index : Int) : Status × Graph :=
  match g.in_edges_at dst dst_index with
  | [] => (errors.InvalidArgument ["Could not find an edge to node ", toString dst], g)
  | e :: _ => (Status.OK, (g.RemoveEdge e.1).AddEdge (Edge.data new_src new_src_index dst dst_index))

/-- Modelled from the spec: `Graph::AddControlEdge` is not part of the sources;
it inserts "a control (ordering-only) edge from one operation to another". -/
def Graph.AddControlEdge (g : Graph) (source : Nat) (dest : Nat) : Graph :=
  g.AddEdge (Edge.control source dest)

/-- Modelled from the spec: `Graph::RemoveControlEdge` is not part of the
sources; it removes the given control edge from the graph. -/
def Graph.RemoveControlEdge (g : Graph) (e : Nat × Edge) : Graph :=
  g.RemoveEdge e.1

/-- Modelled from the spec: `Node::set_requested_device` is not part of the
sources; it overwrites the node's requested-device string. -/
def Graph.set_requested_device (g : Graph) (node : Nat) (device : String) : Graph :=
  { g with requested_device := fun n => if n = node then device else g.requested_device n }

/-! ## The C API structs -/

/-- The C struct `TF_Graph` as `python_api.cc` uses it: `graph->graph` and
`graph->refiner` (the mutex `graph->mu` is not represented). -/
structure TF_Graph where
  graph : Graph
  refiner : ShapeRefiner

/-- The C struct `TF_Operation` as `python_api.cc` uses it (`op->node`); the
node is named by its id. -/
structure TF_Operation where
  node : Nat
deriving DecidableEq, Repr

/-- The C struct `TF_Output` as `python_api.cc` uses it: the output port
`index` (a C `int`) of operation `oper`. -/
structure TF_Output where
  oper : TF_Operation
  index : Int
deriving DecidableEq, Repr

/-- The C struct `TF_Input` as `python_api.cc` uses it: the input port `index`
(a C `int`) of operation `oper`. -/
structure TF_Input where
  oper : TF_Operation
  index : Int
deriving DecidableEq, Repr

/-! ## `UpdateEdge` -/

/-- The type of the graph's edge-update primitive `Graph::UpdateEdge`. -/
abbrev UpdateEdgePrimitive := Graph → Nat → Int → Nat → Int → Status × Graph

/-- What `UpdateEdge` does besides writing the status: reading an output shape
of the source context, and calling the graph's edge-update primitive. -/
inductive Event where
  | ReadOutput (node : Nat) (index : Int)
  | CallUpdateEdge (new_src : Nat) (new_src_index : Int) (dst : Nat) (dst_index : Int)
deriving DecidableEq, Repr

/-- Whether the event is a call of the edge-update primitive. -/
def Event.isCall : Event → Bool
  | .ReadOutput _ _ => false
  | .CallUpdateEdge _ _ _ _ => true

/-- The outcome of `UpdateEdge`: the status written, the graph afterwards, and
the events in the order they happened. -/
structure UpdateEdgeResult where
  status : TF_Status
  graph : TF_Graph
  trace : List Event

/-- The message of the first out-of-range error of `UpdateEdge`. -/
def outputIndexMessage (index num_outputs : Int) : List String :=
  ["Cannot update edge. Output index [", toString index,
   "] is greater than the number of total outputs [", toString num_outputs, "]."]

/-- The message of the second out-of-range error of `UpdateEdge`. -/
def inputIndexMessage (index num_inputs : Int) : List String :=
  ["Cannot update edge. Input index [", toString index,
   "] is greater than the number of total inputs [", toString num_inputs, "]."]

/-- `UpdateEdge(graph, new_src, dst, status)` of `python_api.cc`, over the
edge-update primitive `prim` of the graph.  The shape read from the source
context is not used: the `MergeInput` check that followed is commented out
in the source. -/
def UpdateEdge (prim : UpdateEdgePrimitive) (graph : TF_Graph) (new_src : TF_Output)
    (dst : TF_Input) : UpdateEdgeResult :=
  let ic := graph.refiner.GetContext new_src.oper.node
  if ic.num_outputs ≤ new_src.index then
    { status := ⟨errors.OutOfRange (outputIndexMessage new_src.index ic.num_outputs)⟩,
      graph := graph,
      trace := [] }
  else
    let _shape := ic.output new_src.index
    let ic_dst := graph.refiner.GetContext dst.oper.node
    if ic_dst.num_inputs ≤ dst.index then
      { status := ⟨errors.OutOfRange (inputIndexMessage dst.index ic_dst.num_inputs)⟩,
        graph := graph,
        trace := [Event.ReadOutput new_src.oper.node new_src.index] }
    else
      let r := prim graph.graph new_src.oper.node new_src.index dst.oper.node dst.index
      { status := ⟨r.1⟩,
        graph := { graph with graph := r.2 },
        trace := [Event.ReadOutput new_src.oper.node new_src.index,
                  Event.CallUpdateEdge new_src.oper.node new_src.index dst.oper.node dst.index] }

/-! ## `AddControlInput`, `ClearControlInputs`, `SetRequestedDevice` -/

/-- `AddControlInput(graph, op, input)` of `python_api.cc`:
`graph->graph.AddControlEdge(&input->node, &op->node)`. -/
def AddControlInput (graph : TF_Graph) (op : TF_Operation) (input : TF_Operation) : TF_Graph :=
  { graph with graph := graph.graph.AddControlEdge input.node op.node }

/-- The loop of `ClearControlInputs`:

    for (const auto* edge : op->node.in_edges()) {
      if (edge->IsControlEdge()) graph->graph.RemoveControlEdge(edge);
    }

A range-for takes the begin and end iterators of its range once, before the
first iteration; here the range is the node's own in-edge collection, from
which the body removes edges while the loop runs.  `it` is the position of the
iterator in that collection and `remaining` its distance to the end iterator
taken at loop entry.  Dereferencing a position that the collection no longer
has yields no edge (undefined behaviour in C++): the loop then has no result,
`none`. -/
def ClearControlInputs.loop (node : Nat) : Nat → Nat → Graph → Option Graph
  | 0, _, g => some g
  | remaining + 1, it, g =>
    match (g.in_edges node)[it]? with
    | none => none
    | some edge =>
      ClearControlInputs.loop node remaining (it + 1)
        (if edge.2.IsControlEdge then g.RemoveControlEdge edge else g)

/-- `ClearControlInputs(graph, op)` of `python_api.cc`. -/
def ClearControlInputs (graph : TF_Graph) (op : TF_Operation) : Option TF_Graph :=
  (ClearControlInputs.loop op.node (graph.graph.in_edges op.node).length 0 graph.graph).map
    (fun g => { graph with graph := g })

/-- `SetRequestedDevice(graph, op, device)` of `python_api.cc`:
`op->node.set_requested_device(device)`. -/
def SetRequestedDevice (graph : TF_Graph) (op : TF_Operation) (device : String) : TF_Graph :=
  { graph with graph := graph.graph.set_requested_device op.node device }

/-! ## Example data -/

/-- A context with the given numbers of inputs and outputs, all of shape `[]`. -/
def exampleContext (num_inputs num_outputs : Nat) : InferenceContext :=
  ⟨List.replicate num_inputs ⟨[]⟩, List.replicate num_outputs ⟨[]⟩⟩

/-- A refiner in which every node has one input and two outputs. -/
def exampleRefiner : ShapeRefiner :=
  ⟨fun _ => exampleContext 1 2⟩

/-- A graph with nodes 0, 1, 2: a data edge `0:0 -> 2:0` (id 0) and control
edges `0 -> 2` (id 1) and `1 -> 2` (id 2). -/
def exampleGraph : TF_Graph :=
  { graph := ⟨[some (Edge.data 0 0 2 0), some (Edge.control 0 2), some (Edge.control 1 2)],
              fun _ => ""⟩,
    refiner := exampleRefiner }

/-- A graph without edges. -/
def emptyGraph : TF_Graph :=
  { graph := ⟨[], fun _ => ""⟩, refiner := exampleRefiner }

/-- A graph with nodes 0, 1, 2 and two control edges into node 2:
`0 -> 2` (id 0) and `1 -> 2` (id 1). -/
def twoControlGraph : TF_Graph :=
  { graph := ⟨[some (Edge.control 0 2), some (Edge.control 1 2)], fun _ => ""⟩,
    refiner := exampleRefiner }

/-- A graph with nodes 0, 1, 2 whose node 2 has a data edge `0:0 -> 2:0`
(id 0) followed by one control edge `1 -> 2` (id 1). -/
def oneControlGraph : TF_Graph :=
  { graph := ⟨[some (Edge.data 0 0 2 0), some (Edge.control 1 2)], fun _ => ""⟩,
    refiner := exampleRefiner }

/-! ## Theorems -/

/-- Joining five strings is appending them in order. -/
theorem String.join_five (a b c d e : String) :
    String.join [a, b, c, d, e] = a ++ b ++ c ++ d ++ e := by
  simp [String.join]

/-- The members of `edges` are the edges the graph has, with their ids. -/
theorem Graph.mem_edges (g : Graph) (p : Nat × Edge) : p ∈ g.edges ↔ g.HasEdge p.1 p.2 := by
  obtain ⟨i, e⟩ := p
  simp only [Graph.edges, Graph.HasEdge, List.mem_filterMap]
  constructor
  · rintro ⟨⟨j, oe⟩, hmem, hmap⟩
    rw [List.mk_mem_enum_iff_getElem?] at hmem
    cases oe with
    | none => simp at hmap
    | some e' =>
      simp only [Option.map_some', Option.some.injEq, Prod.mk.injEq] at hmap
      obtain ⟨rfl, rfl⟩ := hmap
      exact hmem
  · intro h
    exact ⟨(i, some e), List.mk_mem_enum_iff_getElem?.mpr h, rfl⟩

/-- Adding an edge appends it to `edges` under the next id. -/
theorem Graph.edges_AddEdge (g : Graph) (e : Edge) :
    (g.AddEdge e).edges = g.edges ++ [(g.edges_.length, e)] := by
  simp [Graph.edges, Graph.AddEdge, List.enum_append, List.enumFrom_singleton]

/-- Removing the edge with id `id` keeps every other edge and nothing else. -/
theorem Graph.HasEdge_RemoveEdge (g : Graph) (id j : Nat) (e : Edge) :
    (g.RemoveEdge id).HasEdge j e ↔ j ≠ id ∧ g.HasEdge j e := by
  simp only [Graph.HasEdge, Graph.RemoveEdge, List.getElem?_set]
  by_cases h : id = j
  · subst h
    by_cases hlt : id < g.edges_.length <;> simp [hlt]
  · simp [h, Ne.symm h]

/-- The id of an edge of the graph is a position of `edges_`. -/
theorem Graph.HasEdge_lt (g : Graph) (id : Nat) (e : Edge) (h : g.HasEdge id e) :
    id < g.edges_.length := by
  unfold Graph.HasEdge at h
  by_contra hge
  rw [List.getElem?_eq_none (not_lt.mp hge)] at h
  simp at h

/-- C1: when `new_src.index` is at least the number of outputs of the source
context, whatever the destination port is, `UpdateEdge` writes an OutOfRange
status whose message names the output bound and holds the index and the
number of outputs, does not call the edge-update primitive (its trace is
empty, and the outcome is the same under any other primitive), and returns the
graph as it was. -/
theorem UpdateEdge_output_index_out_of_range (prim : UpdateEdgePrimitive) (graph : TF_Graph)
    (new_src : TF_Output) (dst : TF_Input)
    (h : (graph.refiner.GetContext new_src.oper.node).num_outputs ≤ new_src.index) :
    (UpdateEdge prim graph new_src dst).status.status =
        ⟨Code.OUT_OF_RANGE,
         "Cannot update edge. Output index [" ++ toString new_src.index ++
         "] is greater than the number of total outputs [" ++
         toString (graph.refiner.GetContext new_src.oper.node).num_outputs ++ "]."⟩ ∧
      (UpdateEdge prim graph new_src dst).trace = [] ∧
      (∀ prim' : UpdateEdgePrimitive,
        UpdateEdge prim' graph new_src dst = UpdateEdge prim graph new_src dst) ∧
      (UpdateEdge prim graph new_src dst).graph = graph ∧
      (UpdateEdge prim graph new_src dst).graph.graph.edges = graph.graph.edges := by
  simp [UpdateEdge, h, errors.OutOfRange, outputIndexMessage, String.join_five]

/-- Witness of C1: output index 2 on a node with two outputs, destination
index 7. -/
theorem UpdateEdge_output_index_out_of_range_witness :
    (exampleRefiner.GetContext 1).num_outputs ≤ 2 ∧
      (UpdateEdge Graph.UpdateEdge exampleGraph ⟨⟨1⟩, 2⟩ ⟨⟨2⟩, 7⟩).status.status =
        ⟨Code.OUT_OF_RANGE,
         "Cannot update edge. Output index [2] is greater than the number of total outputs [2]."⟩ :=
  ⟨by decide,
   (UpdateEdge_output_index_out_of_range Graph.UpdateEdge exampleGraph ⟨⟨1⟩, 2⟩ ⟨⟨2⟩, 7⟩
      (by decide)).1⟩

/-- C2: when `dst.index` is at least the number of inputs of the destination
context, `UpdateEdge` fails with an OutOfRange status, does not call the
edge-update primitive (no call in its trace, and the outcome is the same under
any other primitive) and returns the graph as it was; and when the source
index passed its own check, the message names the input bound and holds the
index and the number of inputs. -/
theorem UpdateEdge_input_index_out_of_range (prim : UpdateEdgePrimitive) (graph : TF_Graph)
    (new_src : TF_Output) (dst : TF_Input)
    (h : (graph.refiner.GetContext dst.oper.node).num_inputs ≤ dst.index) :
    (UpdateEdge prim graph new_src dst).status.status.code = Code.OUT_OF_RANGE ∧
      (UpdateEdge prim graph new_src dst).trace.filter Event.isCall = [] ∧
      (∀ prim' : UpdateEdgePrimitive,
        UpdateEdge prim' graph new_src dst = UpdateEdge prim graph new_src dst) ∧
      (UpdateEdge prim graph new_src dst).graph = graph ∧
      (UpdateEdge prim graph new_src dst).graph.graph.edges = graph.graph.edges ∧
      (new_src.index < (graph.refiner.GetContext new_src.oper.node).num_outputs →
        (UpdateEdge prim graph new_src dst).status.status =
          ⟨Code.OUT_OF_RANGE,
           "Cannot update edge. Input index [" ++ toString dst.index ++
           "] is greater than the number of total inputs [" ++
           toString (graph.refiner.GetContext dst.oper.node).num_inputs ++ "]."⟩) := by
  by_cases hs : (graph.refiner.GetContext new_src.oper.node).num_outputs ≤ new_src.index
  · simp [UpdateEdge, hs, errors.OutOfRange, not_lt.mpr hs]
  · simp [UpdateEdge, hs, h, errors.OutOfRange, inputIndexMessage, String.join_five,
      Event.isCall]

/-- Witness of C2: input index 1 on a node with one input, source index in
range. -/
theorem UpdateEdge_input_index_out_of_range_witness :
    (exampleRefiner.GetContext 2).num_inputs ≤ 1 ∧
      (UpdateEdge Graph.UpdateEdge exampleGraph ⟨⟨1⟩, 0⟩ ⟨⟨2⟩, 1⟩).status.status =
        ⟨Code.OUT_OF_RANGE,
         "Cannot update edge. Input index [1] is greater than the number of total inputs [1]."⟩ :=
  ⟨by decide,
   (UpdateEdge_input_index_out_of_range Graph.UpdateEdge exampleGraph ⟨⟨1⟩, 0⟩ ⟨⟨2⟩, 1⟩
      (by decide)).2.2.2.2.2 (by decide)⟩

/-- C3 as stated fails: with source index `-1` (one less than zero) on a node
with two outputs, and destination index 0, `UpdateEdge` gets past both checks,
reads output `-1` of the source context, which is not an output, and calls
the edge-update primitive with source index `-1`. -/
theorem UpdateEdge_negative_index_passes_checks :
    (UpdateEdge Graph.UpdateEdge exampleGraph ⟨⟨1⟩, -1⟩ ⟨⟨2⟩, 0⟩).trace =
        [Event.ReadOutput 1 (-1), Event.CallUpdateEdge 1 (-1) 2 0] ∧
      (exampleGraph.refiner.GetContext 1).output (-1) = none ∧
      ¬ (0 ≤ (⟨⟨1⟩, -1⟩ : TF_Output).index ∧
          (⟨⟨1⟩, -1⟩ : TF_Output).index < (exampleGraph.refiner.GetContext 1).num_outputs ∧
          0 ≤ (⟨⟨2⟩, 0⟩ : TF_Input).index ∧
          (⟨⟨2⟩, 0⟩ : TF_Input).index < (exampleGraph.refiner.GetContext 2).num_inputs) := by
  refine ⟨by decide, by decide, by decide⟩

/-- C3 as amended: `UpdateEdge` validates the upper bound of both indices.
Whenever it reads `ic->output(new_src.index)` or calls the edge-update
primitive, `new_src.index` is below the number of outputs of the source
context; and whenever it calls the primitive, `dst.index` is below the number
of inputs of the destination context as well. -/
theorem UpdateEdge_checks_upper_bounds (prim : UpdateEdgePrimitive) (graph : TF_Graph)
    (new_src : TF_Output) (dst : TF_Input) (e : Event)
    (h : e ∈ (UpdateEdge prim graph new_src dst).trace) :
    new_src.index < (graph.refiner.GetContext new_src.oper.node).num_outputs ∧
      (e.isCall = true →
        dst.index < (graph.refiner.GetContext dst.oper.node).num_inputs) := by
  by_cases hs : (graph.refiner.GetContext new_src.oper.node).num_outputs ≤ new_src.index
  · simp [UpdateEdge, hs] at h
  · refine ⟨not_le.mp hs, ?_⟩
    by_cases hd : (graph.refiner.GetContext dst.oper.node).num_inputs ≤ dst.index
    · simp [UpdateEdge, hs, hd] at h
      subst h
      simp [Event.isCall]
    · exact fun _ => not_le.mp hd

/-- Witness of the amended C3: a call of the primitive with both indices
below their bounds. -/
theorem UpdateEdge_checks_upper_bounds_witness :
    Event.CallUpdateEdge 1 1 2 0 ∈
        (UpdateEdge Graph.UpdateEdge exampleGraph ⟨⟨1⟩, 1⟩ ⟨⟨2⟩, 0⟩).trace ∧
      (1 : Int) < (exampleGraph.refiner.GetContext 1).num_outputs ∧
      (0 : Int) < (exampleGraph.refiner.GetContext 2).num_inputs :=
  ⟨by decide,
   (UpdateEdge_checks_upper_bounds Graph.UpdateEdge exampleGraph ⟨⟨1⟩, 1⟩ ⟨⟨2⟩, 0⟩
      (Event.CallUpdateEdge 1 1 2 0) (by decide)).1,
   (UpdateEdge_checks_upper_bounds Graph.UpdateEdge exampleGraph ⟨⟨1⟩, 1⟩ ⟨⟨2⟩, 0⟩
      (Event.CallUpdateEdge 1 1 2 0) (by decide)).2 rfl⟩

/-- C5: when `new_src.index` is below the number of outputs and `dst.index`
below the number of inputs, `UpdateEdge` calls the edge-update primitive
exactly once, with the new source node, `new_src.index`, the destination node
and `dst.index`; the status written is the status the primitive returned,
whatever it is; and the graph afterwards is the graph the primitive returned,
with the refiner as it was. -/
theorem UpdateEdge_delegates (prim : UpdateEdgePrimitive) (graph : TF_Graph)
    (new_src : TF_Output) (dst : TF_Input)
    (hsrc : new_src.index < (graph.refiner.GetContext new_src.oper.node).num_outputs)
    (hdst : dst.index < (graph.refiner.GetContext dst.oper.node).num_inputs) :
    (UpdateEdge prim graph new_src dst).trace.filter Event.isCall =
        [Event.CallUpdateEdge new_src.oper.node new_src.index dst.oper.node dst.index] ∧
      (UpdateEdge prim graph new_src dst).status.status =
        (prim graph.graph new_src.oper.node new_src.index dst.oper.node dst.index).1 ∧
      (UpdateEdge prim graph new_src dst).graph.graph =
        (prim graph.graph new_src.oper.node new_src.index dst.oper.node dst.index).2 ∧
      (UpdateEdge prim graph new_src dst).graph.refiner = graph.refiner := by
  simp [UpdateEdge, not_le.mpr hsrc, not_le.mpr hdst, Event.isCall]

/-- Witness of C5: a primitive that always fails; its error comes back
unchanged. -/
theorem UpdateEdge_delegates_witness :
    (1 : Int) < (exampleGraph.refiner.GetContext 1).num_outputs ∧
      (0 : Int) < (exampleGraph.refiner.GetContext 2).num_inputs ∧
      (UpdateEdge (fun g _ _ _ _ => (errors.InvalidArgument ["no"], g)) exampleGraph
          ⟨⟨1⟩, 1⟩ ⟨⟨2⟩, 0⟩).status.status = errors.InvalidArgument ["no"] :=
  ⟨by decide, by decide,
   (UpdateEdge_delegates (fun g _ _ _ _ => (errors.InvalidArgument ["no"], g)) exampleGraph
      ⟨⟨1⟩, 1⟩ ⟨⟨2⟩, 0⟩ (by decide) (by decide)).2.1⟩

/-- C10: `UpdateEdge` does not look at shapes.  Two runs on the same graph and
ports, under refiners whose contexts for the source node agree on the number
of outputs and whose contexts for the destination node agree on the number of
inputs, write the same status, make the same reads and the same call of the
edge-update primitive and leave the same graph, whatever shapes the contexts
hold; and each run leaves its refiner, hence both contexts, as they were. -/
theorem UpdateEdge_ignores_shapes (prim : UpdateEdgePrimitive) (graph : Graph)
    (refiner refiner' : ShapeRefiner) (new_src : TF_Output) (dst : TF_Input)
    (hout : (refiner.GetContext new_src.oper.node).num_outputs =
      (refiner'.GetContext new_src.oper.node).num_outputs)
    (hin : (refiner.GetContext dst.oper.node).num_inputs =
      (refiner'.GetContext dst.oper.node).num_inputs) :
    (UpdateEdge prim ⟨graph, refiner⟩ new_src dst).status =
        (UpdateEdge prim ⟨graph, refiner'⟩ new_src dst).status ∧
      (UpdateEdge prim ⟨graph, refiner⟩ new_src dst).trace =
        (UpdateEdge prim ⟨graph, refiner'⟩ new_src dst).trace ∧
      (UpdateEdge prim ⟨graph, refiner⟩ new_src dst).graph.graph =
        (UpdateEdge prim ⟨graph, refiner'⟩ new_src dst).graph.graph ∧
      (UpdateEdge prim ⟨graph, refiner⟩ new_src dst).graph.refiner = refiner ∧
      (UpdateEdge prim ⟨graph, refiner'⟩ new_src dst).graph.refiner = refiner' := by
  simp only [UpdateEdge, hout, hin]
  split_ifs <;> simp

/-- Witness of C10: the source output has shape `[2, 3]` in one run and `[5]`
in the other, the destination input has shape `[7]`; the status is the same. -/
theorem UpdateEdge_ignores_shapes_witness :
    (UpdateEdge Graph.UpdateEdge
        ⟨exampleGraph.graph, ⟨fun _ => ⟨[⟨[7]⟩], [⟨[2, 3]⟩]⟩⟩⟩ ⟨⟨1⟩, 0⟩ ⟨⟨2⟩, 0⟩).status =
      (UpdateEdge Graph.UpdateEdge
        ⟨exampleGraph.graph, ⟨fun _ => ⟨[⟨[7]⟩], [⟨[5]⟩]⟩⟩⟩ ⟨⟨1⟩, 0⟩ ⟨⟨2⟩, 0⟩).status :=
  (UpdateEdge_ignores_shapes Graph.UpdateEdge exampleGraph.graph
      ⟨fun _ => ⟨[⟨[7]⟩], [⟨[2, 3]⟩]⟩⟩ ⟨fun _ => ⟨[⟨[7]⟩], [⟨[5]⟩]⟩⟩ ⟨⟨1⟩, 0⟩ ⟨⟨2⟩, 0⟩
      (by decide) (by decide)).1

/-- C4: when the destination port has an incoming data edge `old` and both
indices are in range, `UpdateEdge` over the graph's edge-update primitive ends
with an OK status, after which the destination port has exactly one incoming
edge, that edge is a data edge from `(new_src.oper, new_src.index)`, and the
edge `old` that entered the port before is no longer in the graph. -/
theorem UpdateEdge_success_rewires (graph : TF_Graph) (new_src : TF_Output) (dst : TF_Input)
    (old : Nat × Edge)
    (hold : graph.graph.in_edges_at dst.oper.node dst.index = [old])
    (hsrc : 0 ≤ new_src.index ∧
      new_src.index < (graph.refiner.GetContext new_src.oper.node).num_outputs)
    (hdst : 0 ≤ dst.index ∧
      dst.index < (graph.refiner.GetContext dst.oper.node).num_inputs) :
    (UpdateEdge Graph.UpdateEdge graph new_src dst).status.status = Status.OK ∧
      (UpdateEdge Graph.UpdateEdge graph new_src dst).graph.graph.in_edges_at
          dst.oper.node dst.index =
        [(graph.graph.edges_.length,
          Edge.data new_src.oper.node new_src.index dst.oper.node dst.index)] ∧
      old ∉ (UpdateEdge Graph.UpdateEdge graph new_src dst).graph.graph.edges := by
  have hmem : old ∈ graph.graph.in_edges_at dst.oper.node dst.index := by simp [hold]
  have hin : graph.graph.HasEdge old.1 old.2 :=
    (Graph.mem_edges _ _).mp (List.mem_filter.mp hmem).1
  have hrun : UpdateEdge Graph.UpdateEdge graph new_src dst =
      { status := ⟨Status.OK⟩,
        graph := ⟨Graph.AddEdge (graph.graph.RemoveEdge old.1)
          (Edge.data new_src.oper.node new_src.index dst.oper.node dst.index), graph.refiner⟩,
        trace := [Event.ReadOutput new_src.oper.node new_src.index,
          Event.CallUpdateEdge new_src.oper.node new_src.index dst.oper.node dst.index] } := by
    simp [UpdateEdge, not_le.mpr hsrc.2, not_le.mpr hdst.2, Graph.UpdateEdge, hold]
  rw [hrun]
  refine ⟨rfl, ?_, ?_⟩
  · have hnil : (graph.graph.RemoveEdge old.1).in_edges_at dst.oper.node dst.index = [] := by
      unfold Graph.in_edges_at
      rw [List.filter_eq_nil_iff]
      intro a ha hp
      have h1 := (Graph.HasEdge_RemoveEdge _ _ _ _).mp ((Graph.mem_edges _ _).mp ha)
      have h2 : a ∈ graph.graph.in_edges_at dst.oper.node dst.index :=
        List.mem_filter.mpr ⟨(Graph.mem_edges _ _).mpr h1.2, hp⟩
      rw [hold, List.mem_singleton] at h2
      exact h1.1 (by rw [h2])
    have hlen : (graph.graph.RemoveEdge old.1).edges_.length = graph.graph.edges_.length := by
      simp [Graph.RemoveEdge]
    show List.filter _ ((graph.graph.RemoveEdge old.1).AddEdge _).edges = _
    rw [Graph.edges_AddEdge, List.filter_append, hlen]
    unfold Graph.in_edges_at at hnil
    rw [hnil]
    simp [Edge.entersPort]
  · intro hcontra
    have h1 := (Graph.mem_edges _ _).mp hcontra
    have hlt := Graph.HasEdge_lt _ _ _ hin
    unfold Graph.HasEdge at h1
    simp only [Graph.AddEdge, Graph.RemoveEdge] at h1
    rw [List.getElem?_append_left (by simpa using hlt), List.getElem?_set] at h1
    simp [hlt] at h1

/-- Witness of C4: in the example graph the edge `0:0 -> 2:0` (id 0) is
rewired to come from output 1 of node 1. -/
theorem UpdateEdge_success_rewires_witness :
    exampleGraph.graph.in_edges_at 2 0 = [(0, Edge.data 0 0 2 0)] ∧
      (UpdateEdge Graph.UpdateEdge exampleGraph ⟨⟨1⟩, 1⟩ ⟨⟨2⟩, 0⟩).graph.graph.in_edges_at 2 0 =
        [(3, Edge.data 1 1 2 0)] :=
  ⟨by decide,
   (UpdateEdge_success_rewires exampleGraph ⟨⟨1⟩, 1⟩ ⟨⟨2⟩, 0⟩ (0, Edge.data 0 0 2 0)
      (by decide) (by decide) (by decide)).2.1⟩

/-- C7: `AddControlInput(graph, op, input)` adds exactly one edge, the control
edge from `input` to `op`: `op` then has an incoming control edge whose source
is `input`, and the data edges of the graph are the same as before. -/
theorem AddControlInput_adds_control_edge (graph : TF_Graph) (op input : TF_Operation) :
    (AddControlInput graph op input).graph.edges =
        graph.graph.edges ++ [(graph.graph.edges_.length, Edge.control input.node op.node)] ∧
      (∃ p ∈ (AddControlInput graph op input).graph.in_edges op.node,
        p.2.IsControlEdge = true ∧ p.2.src = input.node ∧ p.2.dst = op.node) ∧
      (AddControlInput graph op input).graph.edges.filter (fun p => !p.2.IsControlEdge) =
        graph.graph.edges.filter (fun p => !p.2.IsControlEdge) := by
  have hedges : (AddControlInput graph op input).graph.edges =
      graph.graph.edges ++ [(graph.graph.edges_.length, Edge.control input.node op.node)] := by
    simp [AddControlInput, Graph.AddControlEdge, Graph.edges_AddEdge]
  refine ⟨hedges, ⟨(graph.graph.edges_.length, Edge.control input.node op.node), ?_, rfl, rfl, rfl⟩,
    ?_⟩
  · simp [Graph.in_edges, hedges, Edge.dst]
  · simp [hedges, Edge.IsControlEdge]

/-- C8: after `SetRequestedDevice(graph, op, d)` the requested device of `op`
is `d`, for every string `d` and whatever it was before; a second call
overwrites the first; and the call changes no edge, no other operation and
not the refiner. -/
theorem SetRequestedDevice_sets_device (graph : TF_Graph) (op : TF_Operation)
    (d0 d : String) :
    (SetRequestedDevice graph op d).graph.requested_device op.node = d ∧
      (SetRequestedDevice graph op "").graph.requested_device op.node = "" ∧
      (SetRequestedDevice (SetRequestedDevice graph op d0) op d).graph.requested_device op.node
        = d ∧
      (SetRequestedDevice graph op d).graph.edges_ = graph.graph.edges_ ∧
      (∀ other : Nat, other ≠ op.node →
        (SetRequestedDevice graph op d).graph.requested_device other =
          graph.graph.requested_device other) ∧
      (SetRequestedDevice graph op d).refiner = graph.refiner := by
  refine ⟨?_, ?_, ?_, rfl, ?_, rfl⟩
  · simp [SetRequestedDevice, Graph.set_requested_device]
  · simp [SetRequestedDevice, Graph.set_requested_device]
  · simp [SetRequestedDevice, Graph.set_requested_device]
  · intro other h
    simp [SetRequestedDevice, Graph.set_requested_device, h]

/-- Clearing slot `i` drops the entry with id `n + i` from the enumeration of
the live slots and keeps the others in order. -/
theorem filterMap_enumFrom_set_none (l : List (Option Edge)) (n i : Nat) :
    ((l.set i none).enumFrom n).filterMap (fun p => p.2.map (fun e => (p.1, e))) =
      ((l.enumFrom n).filterMap (fun p => p.2.map (fun e => (p.1, e)))).filter
        (fun p => p.1 != n + i) := by
  induction l generalizing n i with
  | nil => simp
  | cons a tl ih =>
    cases i with
    | zero =>
      have htl : ((tl.enumFrom (n + 1)).filterMap (fun p => p.2.map (fun e => (p.1, e)))).filter
          (fun p => p.1 != n) =
          (tl.enumFrom (n + 1)).filterMap (fun p => p.2.map (fun e => (p.1, e))) := by
        rw [List.filter_eq_self]
        intro p hp
        obtain ⟨q, hq, hmap⟩ := List.mem_filterMap.mp hp
        have hle := List.le_fst_of_mem_enumFrom hq
        cases hq2 : q.2 with
        | none => simp [hq2] at hmap
        | some e =>
          simp only [hq2, Option.map_some', Option.some.injEq] at hmap
          subst hmap
          simp only [bne_iff_ne, ne_eq]
          omega
      cases a with
      | none => simp [List.filterMap_cons, htl]
      | some e => simp [List.filterMap_cons, htl]
    | succ i =>
      have := ih (n + 1) i
      rw [show n + 1 + i = n + (i + 1) by omega] at this
      cases a with
      | none =>
        simp only [List.set_cons_succ, List.enumFrom_cons, List.filterMap_cons, Option.map_none']
        rw [this]
      | some e =>
        simp only [List.set_cons_succ, List.enumFrom_cons, List.filterMap_cons, Option.map_some']
        rw [this, List.filter_cons]
        have : ((n, e).1 != n + (i + 1)) = true := by simp
        rw [if_pos this]

/-- Removing the edge with id `id` drops it from `edges`, the rest keep their order. -/
theorem Graph.edges_RemoveEdge (g : Graph) (id : Nat) :
    (g.RemoveEdge id).edges = g.edges.filter (fun p => p.1 != id) := by
  have := filterMap_enumFrom_set_none g.edges_ 0 id
  simpa [Graph.edges, Graph.RemoveEdge, List.enum_eq_enumFrom] using this

/-- Removing the edge with id `id` drops it from the in-edges of every node. -/
theorem Graph.in_edges_RemoveEdge (g : Graph) (id node : Nat) :
    (g.RemoveEdge id).in_edges node = (g.in_edges node).filter (fun p => p.1 != id) := by
  simp [Graph.in_edges, Graph.edges_RemoveEdge, List.filter_filter, Bool.and_comm]

/-- Once the in-edge collection is shorter than the end position taken at
loop entry, the loop cannot finish: edges are only ever removed. -/
theorem ClearControlInputs.loop_none_of_short (node : Nat) (remaining : Nat) :
    ∀ (it : Nat) (g : Graph), 0 < remaining →
      (g.in_edges node).length < it + remaining →
      ClearControlInputs.loop node remaining it g = none := by
  induction remaining with
  | zero => intro it g h; omega
  | succ r ih =>
    intro it g _ hlen
    unfold ClearControlInputs.loop
    cases hread : (g.in_edges node)[it]? with
    | none => rfl
    | some edge =>
      have hit : it < (g.in_edges node).length := (List.getElem?_eq_some_iff.mp hread).1
      simp only
      apply ih
      · omega
      · split_ifs
        · have := List.length_filter_le (fun p : Nat × Edge => p.1 != edge.1) (g.in_edges node)
          rw [Graph.RemoveControlEdge, Graph.in_edges_RemoveEdge]
          omega
        · omega

/-- The loop has no result when a control edge that is not the last in-edge
is still ahead of the iterator. -/
theorem ClearControlInputs.loop_none_of_control_before_last (g : Graph) (node i : Nat)
    (e : Nat × Edge) (hi : (g.in_edges node)[i]? = some e) (hc : e.2.IsControlEdge = true)
    (hlast : i + 1 < (g.in_edges node).length) (remaining : Nat) :
    ∀ it : Nat, it + remaining = (g.in_edges node).length → it ≤ i →
      ClearControlInputs.loop node remaining it g = none := by
  induction remaining with
  | zero => intro it h1 h2; omega
  | succ r ih =>
    intro it hlen hle
    have hit : it < (g.in_edges node).length := by omega
    unfold ClearControlInputs.loop
    have hread : (g.in_edges node)[it]? = some ((g.in_edges node)[it]) :=
      List.getElem?_eq_getElem hit
    rw [hread]
    simp only
    by_cases hx : ((g.in_edges node)[it]).2.IsControlEdge = true
    · rw [if_pos hx]
      apply ClearControlInputs.loop_none_of_short
      · omega
      · rw [Graph.RemoveControlEdge, Graph.in_edges_RemoveEdge]
        have hlt : (List.filter (fun p : Nat × Edge => p.1 != ((g.in_edges node)[it]).1)
            (g.in_edges node)).length < (g.in_edges node).length := by
          rw [List.length_filter_lt_length_iff_exists]
          exact ⟨(g.in_edges node)[it], List.getElem_mem hit, by simp⟩
        omega
    · rw [if_neg hx]
      have hne : it ≠ i := by
        rintro rfl
        rw [hread] at hi
        simp only [Option.some.injEq] at hi
        rw [hi] at hx
        exact hx hc
      exact ih (it + 1) (by omega) (by omega)

/-- Iterations over data edges leave the graph as it is. -/
theorem ClearControlInputs.loop_data_steps (g : Graph) (node r : Nat) (k : Nat) :
    ∀ it : Nat,
      (∀ j x, it ≤ j → j < it + k → (g.in_edges node)[j]? = some x →
        x.2.IsControlEdge = false) →
      it + k ≤ (g.in_edges node).length →
      ClearControlInputs.loop node (k + r) it g = ClearControlInputs.loop node r (it + k) g := by
  induction k with
  | zero => intro it _ _; simp
  | succ k ih =>
    intro it hdata hlen
    have hit : it < (g.in_edges node).length := by omega
    have hread : (g.in_edges node)[it]? = some ((g.in_edges node)[it]) :=
      List.getElem?_eq_getElem hit
    rw [show k + 1 + r = (k + r) + 1 by omega]
    simp only [ClearControlInputs.loop, hread, hdata it _ (le_refl _) (by omega) hread,
      Bool.false_eq_true, if_false]
    rw [ih (it + 1) (fun j x h1 h2 h3 => hdata j x (by omega) (by omega) h3) (by omega),
      show it + 1 + k = it + (k + 1) by omega]

/-- Whenever the loop of `ClearControlInputs` runs to its end, the graph it
leaves has the edges of the graph before except the control edges into `op`. -/
theorem ClearControlInputs_result (graph : TF_Graph) (op : TF_Operation) (graph' : TF_Graph)
    (h : ClearControlInputs graph op = some graph') (id : Nat) (e : Edge) :
    graph'.graph.HasEdge id e ↔
      graph.graph.HasEdge id e ∧ ¬ (e.dst = op.node ∧ e.IsControlEdge = true) := by
  obtain ⟨gr, hloop, rfl⟩ := Option.map_eq_some'.mp h
  simp only
  have hmemL : ∀ id e, graph.graph.HasEdge id e → e.dst = op.node →
      ∃ j : Nat, (graph.graph.in_edges op.node)[j]? = some (id, e) := by
    intro id e h1 h2
    apply List.mem_iff_getElem?.mp
    exact List.mem_filter.mpr ⟨(Graph.mem_edges _ (id, e)).mpr h1, by simpa using h2⟩
  have hdata : ∀ j x, (graph.graph.in_edges op.node)[j]? = some x →
      j + 1 < (graph.graph.in_edges op.node).length → x.2.IsControlEdge = false := by
    intro j x hj hlast
    by_contra hc
    have := ClearControlInputs.loop_none_of_control_before_last graph.graph op.node j x hj
      (by simpa using hc) hlast (graph.graph.in_edges op.node).length 0 (by omega) (by omega)
    rw [this] at hloop
    simp at hloop
  cases hn : (graph.graph.in_edges op.node).length with
  | zero =>
    rw [hn] at hloop
    simp only [ClearControlInputs.loop, Option.some.injEq] at hloop
    subst hloop
    constructor
    · intro h1
      refine ⟨h1, fun hc => ?_⟩
      obtain ⟨j, hj⟩ := hmemL id e h1 hc.1
      have := (List.getElem?_eq_some_iff.mp hj).1
      omega
    · exact fun h1 => h1.1
  | succ m =>
    have hm : m < (graph.graph.in_edges op.node).length := by omega
    have hread : (graph.graph.in_edges op.node)[m]? = some ((graph.graph.in_edges op.node)[m]) :=
      List.getElem?_eq_getElem hm
    rw [hn, ClearControlInputs.loop_data_steps graph.graph op.node 1 m 0
      (fun j x _ h2 h3 => hdata j x h3 (by omega)) (by omega)] at hloop
    simp only [ClearControlInputs.loop, Nat.zero_add, hread, Option.some.injEq] at hloop
    have hxmem : (graph.graph.in_edges op.node)[m] ∈ graph.graph.in_edges op.node :=
      List.getElem_mem hm
    have hxin : graph.graph.HasEdge ((graph.graph.in_edges op.node)[m]).1
        ((graph.graph.in_edges op.node)[m]).2 :=
      (Graph.mem_edges _ _).mp (List.mem_filter.mp hxmem).1
    have hxdst : ((graph.graph.in_edges op.node)[m]).2.dst = op.node := by
      simpa using (List.mem_filter.mp hxmem).2
    have hpos : ∀ id e, graph.graph.HasEdge id e → e.dst = op.node → e.IsControlEdge = true →
        (id, e) = (graph.graph.in_edges op.node)[m] := by
      intro id e h1 h2 h3
      obtain ⟨j, hj⟩ := hmemL id e h1 h2
      have hjlt := (List.getElem?_eq_some_iff.mp hj).1
      by_cases hjm : j = m
      · subst hjm
        rw [hread] at hj
        exact (Option.some.inj hj).symm
      · have := hdata j (id, e) hj (by omega)
        simp [h3] at this
    by_cases hx : ((graph.graph.in_edges op.node)[m]).2.IsControlEdge = true
    · rw [if_pos hx] at hloop
      subst hloop
      rw [Graph.RemoveControlEdge, Graph.HasEdge_RemoveEdge]
      constructor
      · rintro ⟨hne, h1⟩
        refine ⟨h1, fun hc => hne ?_⟩
        rw [← hpos id e h1 hc.1 hc.2]
      · rintro ⟨h1, hnc⟩
        refine ⟨fun hid => hnc ?_, h1⟩
        subst hid
        unfold Graph.HasEdge at h1 hxin
        rw [hxin] at h1
        simp only [Option.some.injEq] at h1
        subst h1
        exact ⟨hxdst, hx⟩
    · rw [if_neg hx] at hloop
      subst hloop
      constructor
      · intro h1
        refine ⟨h1, fun hc => hx ?_⟩
        rw [← hpos id e h1 hc.1 hc.2]
        exact hc.2
      · exact fun h1 => h1.1

/-- When a control edge into `op` is not the last in-edge of `op`, the loop of
`ClearControlInputs` reads a position its collection no longer has: the call
has no result.  This is so whenever `op` has two or more control in-edges. -/
theorem ClearControlInputs_none_of_control_before_last (graph : TF_Graph) (op : TF_Operation)
    (i : Nat) (e : Nat × Edge) (hi : (graph.graph.in_edges op.node)[i]? = some e)
    (hc : e.2.IsControlEdge = true) (hlast : i + 1 < (graph.graph.in_edges op.node).length) :
    ClearControlInputs graph op = none := by
  unfold ClearControlInputs
  rw [ClearControlInputs.loop_none_of_control_before_last graph.graph op.node i e hi hc hlast
    (graph.graph.in_edges op.node).length 0 (by omega) (by omega)]
  rfl

/-- C6 at a failing input: node 2 has the two control in-edges `0 -> 2` and
`1 -> 2`, as two calls of `AddControlInput` on a graph without edges leave
them.  The first iteration removes `0 -> 2`; the in-edge collection then
holds only `1 -> 2`, at position 0, while the iterator moves on to position 1,
short of the end position 2 taken at loop entry.  Position 1 holds no edge any
more, so the loop has no result, and the control edge `1 -> 2` was never
visited.  (With a single control edge in last position the loop completes and
removes it.) -/
theorem ClearControlInputs_two_control_edges :
    (AddControlInput (AddControlInput emptyGraph ⟨2⟩ ⟨0⟩) ⟨2⟩ ⟨1⟩).graph.edges_ =
        twoControlGraph.graph.edges_ ∧
      twoControlGraph.graph.in_edges 2 = [(0, Edge.control 0 2), (1, Edge.control 1 2)] ∧
      (twoControlGraph.graph.RemoveControlEdge (0, Edge.control 0 2)).in_edges 2 =
        [(1, Edge.control 1 2)] ∧
      ClearControlInputs.loop 2 1 1
        (twoControlGraph.graph.RemoveControlEdge (0, Edge.control 0 2)) = none ∧
      ClearControlInputs twoControlGraph ⟨2⟩ = none ∧
      (ClearControlInputs oneControlGraph ⟨2⟩).map (fun g => g.graph.edges) =
        some [(0, Edge.data 0 0 2 0)] := by
  refine ⟨by decide, by decide, by decide, rfl, rfl, by decide⟩

end tensorflow
